import Mathlib

/-!
Verification of the connection-multiplexing and packet-switching core of a
websocket VPN relay (skx/simple-vpn), shallowly embedded in Lean 4.

The Go sources are embedded as pure Lean functions over explicit state:
  - shared/util.go          : MAC extraction and classification (two
    historical variants: the IPv4 switching mode reading offsets 6:12 and
    0:6, and the IPv6-aware variant reading offsets 16:32 and 0:16);
  - shared/socketHandler.go : the switching table, broadcast fan-out, the
    binary branch of the transport-read pump of Serve, setMACFrom, Close,
    closeDone, rawSendCommand and the text-command branch of Serve;
  - cmd_server.go           : the IP-allocation pool (pickIP, the startup
    initialization loop of Execute, and the reap callback release).

Go maps are modelled as association lists with lookup semantics (an absent
key and a key mapped to nil are indistinguishable, exactly as the Go code
observes them); byte slices are lists of naturals; goroutine interleaving,
where a claim depends on it, is modelled as an explicit scheduler over
atomic statements.
-/

namespace SimpleVPN

/-! ## Frame classifier (shared/util.go, both variants) -/

/-- A MAC address value as produced by the Go code: the 6-byte array that
results from zero-initialisation followed by a copy.  We keep it as a list
of bytes of length 6. -/
abbrev Mac := List Nat

/-- The Go slice expression packet[lo:hi], by its contents: the bytes at
indices lo .. hi-1 that exist in the message. -/
def goSlice (packet : List Nat) (lo hi : Nat) : List Nat :=
  (packet.take hi).drop lo

/-- Whether the Go slice expression packet[lo:hi] stays within the bytes of
the message.  When hi exceeds the message length the Go expression either
panics (capacity = length) or reads bytes that are not part of the message
(capacity > length); both are out-of-bounds accesses with respect to the
received message. -/
def goSliceInBounds (packet : List Nat) (lo hi : Nat) : Prop :=
  lo ≤ hi ∧ hi ≤ packet.length

instance (packet : List Nat) (lo hi : Nat) : Decidable (goSliceInBounds packet lo hi) := by
  unfold goSliceInBounds; infer_instance

/-- Go: var mac MacAddr; copy(mac[:], src).  The destination array is
zero-initialised and copy transfers min(6, len(src)) bytes. -/
def copyMac (src : List Nat) : Mac :=
  src.take 6 ++ List.replicate (6 - src.length) 0

/-- shared/util.go (IPv4 switching mode): GetSrcMAC reads packet[6:12]. -/
def GetSrcMAC (packet : List Nat) : Mac :=
  copyMac (goSlice packet 6 12)

/-- shared/util.go (IPv4 switching mode): GetDestMAC reads packet[0:6]. -/
def GetDestMAC (packet : List Nat) : Mac :=
  copyMac (goSlice packet 0 6)

/-- IPv6-aware variant of util.go: GetSrcMAC reads packet[16:32]. -/
def GetSrcMACv6 (packet : List Nat) : Mac :=
  copyMac (goSlice packet 16 32)

/-- IPv6-aware variant of util.go: GetDestMAC reads packet[0:16]. -/
def GetDestMACv6 (packet : List Nat) : Mac :=
  copyMac (goSlice packet 0 16)

/-- shared/util.go: MACIsUnicast is (mac[0] & 1) == 0. -/
def MACIsUnicast (mac : Mac) : Bool :=
  mac.headD 0 % 2 == 0

/-- shared/socketHandler.go: defaultMac, the broadcast address used as the
unlearned marker. -/
def defaultMac : Mac := [255, 255, 255, 255, 255, 255]

/-! ## Switching table and binary-frame routing (shared/socketHandler.go) -/

/-- Lookup in a Go map modelled as an association list (macTable[mac]). -/
def mapGet : List (Mac × Nat) → Mac → Option Nat
  | [], _ => none
  | p :: rest, k => if p.1 = k then some p.2 else mapGet rest k

/-- Go map delete(macTable, k). -/
def mapDelete : List (Mac × Nat) → Mac → List (Mac × Nat)
  | [], _ => []
  | p :: rest, k => if p.1 = k then mapDelete rest k else p :: mapDelete rest k

/-- Go map assignment macTable[k] = v (overwrite or add). -/
def mapInsert (t : List (Mac × Nat)) (k : Mac) (v : Nat) : List (Mac × Nat) :=
  (k, v) :: mapDelete t k

/-- The shared routing state observed by one execution of the binary branch
of the transport-read pump: the process-wide macTable and allSockets, and
the learned MAC field of every socket (sockets are identified by a natural
number standing for their pointer identity). -/
structure SwitchState where
  macTable : List (Mac × Nat)
  allSockets : List Nat
  sockMac : Nat → Mac

/-- shared/socketHandler.go FindSocketByMAC: return macTable[mac]. -/
def FindSocketByMAC (st : SwitchState) (mac : Mac) : Option Nat :=
  mapGet st.macTable mac

/-- An observable write performed by the pump: WriteMessage on some socket,
or a write to the receiving socket's own tunnel interface. -/
inductive Effect where
  | wsWrite (dst : Nat) (msg : List Nat)
  | ifaceWrite (msg : List Nat)
deriving DecidableEq

/-- shared/socketHandler.go BroadcastMessage: snapshot every socket of
allSockets other than skip, then WriteMessage to each. -/
def broadcastEffects (allSockets : List Nat) (skip : Nat) (msg : List Nat) : List Effect :=
  (allSockets.filter (fun v => v != skip)).map (fun v => Effect.wsWrite v msg)

/-- shared/socketHandler.go setMACFrom: learn the source MAC of msg for
socket s.  Returns unchanged unless the source is unicast and differs from
the current learned address; otherwise deletes the old table entry (when
one was recorded), records the new address and inserts the fresh entry. -/
def setMACFrom (st : SwitchState) (s : Nat) (msg : List Nat) : SwitchState :=
  let srcMac := GetSrcMAC msg
  if !MACIsUnicast srcMac || srcMac == st.sockMac s then st
  else
    let t := if st.sockMac s ≠ defaultMac then mapDelete st.macTable (st.sockMac s) else st.macTable
    { macTable := mapInsert t srcMac s
      allSockets := st.allSockets
      sockMac := fun x => if x = s then srcMac else st.sockMac x }

/-- The binary-message branch of shared/socketHandler.go Serve, for the
socket s whose pump received msg (hasIface records whether s.iface is
bound).  Returns the updated shared state and the list of writes performed,
in order. -/
def binaryStep (st : SwitchState) (s : Nat) (hasIface : Bool) (msg : List Nat) :
    SwitchState × List Effect :=
  if 14 ≤ msg.length then
    let st1 := setMACFrom st s msg
    let dest := GetDestMAC msg
    if MACIsUnicast dest then
      match FindSocketByMAC st1 dest with
      | some sd => (st1, [Effect.wsWrite sd msg])
      | none => (st1, if hasIface then [Effect.ifaceWrite msg] else [])
    else
      (st1, broadcastEffects st1.allSockets s msg
              ++ (if hasIface then [Effect.ifaceWrite msg] else []))
  else
    (st, if hasIface then [Effect.ifaceWrite msg] else [])

/-! ## Close (shared/socketHandler.go Close) -/

/-- The state read and written by Close for one socket s: the shared
macTable and allSockets, plus the fields of s itself.  closeSignals counts
how many times close(s.closechan) has executed - the one-shot closing
signal; executing it twice would panic the Go runtime, and observing the
count also witnesses that the signal fires exactly once. -/
structure CloseState where
  macTable : List (Mac × Nat)
  allSockets : List Nat
  mac : Mac
  connOpen : Bool
  ifacePresent : Bool
  ifaceOpen : Bool
  closechanopen : Bool
  closeSignals : Nat
deriving DecidableEq

/-- shared/socketHandler.go Close, statement by statement: close the
websocket connection, close the tunnel interface if present, signal the
one-shot closing channel if still open, drop the table entry and reset the
learned MAC if one was recorded, and delete the socket from allSockets. -/
def Close (st : CloseState) (s : Nat) : CloseState :=
  let a : CloseState :=
    { st with connOpen := false
              ifaceOpen := if st.ifacePresent then false else st.ifaceOpen }
  let b : CloseState :=
    if a.closechanopen then
      { a with closechanopen := false, closeSignals := a.closeSignals + 1 }
    else a
  let c : CloseState :=
    if b.mac ≠ defaultMac then
      { b with macTable := mapDelete b.macTable b.mac, mac := defaultMac }
    else b
  { c with allSockets := c.allSockets.filter (fun v => v != s) }

/-! ## The reap section of closeDone (shared/socketHandler.go)

closeDone ends with

  if s.reaper != nil && s.reaped == false { s.reaper(s.clientIP); s.reaped = true }

executed by up to three background tasks with no lock held around the
check, the callback invocation and the flag write.  We model two tasks
each running this section (reaper non-nil), one atomic Go statement per
step, under an explicit interleaving scheduler. -/

/-- Program counter of one task inside the reap section: about to evaluate
the guard, about to invoke the reaper, about to set the flag, or done. -/
inductive ReapPC where
  | check
  | invoke
  | set
  | done
deriving DecidableEq

/-- Shared state: the reaped flag, how many times the reap callback has
been invoked, and the program counters of the two tasks. -/
structure ReapState where
  reaped : Bool
  reapCount : Nat
  pc1 : ReapPC
  pc2 : ReapPC
deriving DecidableEq

/-- One atomic statement of the reap section: the guard reads the flag, the
invoke step calls the callback, the set step writes the flag. -/
def reapStep (reaped : Bool) (count : Nat) : ReapPC → Bool × Nat × ReapPC
  | .check => (reaped, count, if reaped then .done else .invoke)
  | .invoke => (reaped, count + 1, .set)
  | .set => (true, count, .done)
  | .done => (reaped, count, .done)

/-- Run one scheduler decision: true steps task 1, false steps task 2. -/
def schedStep (st : ReapState) (pickFirst : Bool) : ReapState :=
  if pickFirst then
    match reapStep st.reaped st.reapCount st.pc1 with
    | (r, c, pc) => { st with reaped := r, reapCount := c, pc1 := pc }
  else
    match reapStep st.reaped st.reapCount st.pc2 with
    | (r, c, pc) => { st with reaped := r, reapCount := c, pc2 := pc }

/-- Run a schedule. -/
def runSched (st : ReapState) (sched : List Bool) : ReapState :=
  sched.foldl schedStep st

/-- Both tasks enter closeDone with the flag still clear. -/
def reapInit : ReapState :=
  { reaped := false, reapCount := 0, pc1 := .check, pc2 := .check }

/-! ## IP allocation pool (cmd_server.go) -/

/-- Rendering of a 4-byte IP as the dotted-quad string produced by
net.IP.String for the addresses the server iterates over. -/
def ipToString (ip : Nat) : String :=
  Nat.repr (ip / 16777216 % 256) ++ "." ++ Nat.repr (ip / 65536 % 256) ++ "."
    ++ Nat.repr (ip / 256 % 256) ++ "." ++ Nat.repr (ip % 256)

/-- Go strings.HasSuffix. -/
def goHasSuffix (s sfx : String) : Bool :=
  sfx.data.isSuffixOf s.data

/-- The addresses visited by the Go loop
for ip := ip.Mask(subnet.Mask); subnet.Contains(ip); incIP(ip):
starting at the masked base address, incIP adds one with carry, and
containment holds for exactly the 2^(32-maskBits) addresses of the
subnet, in increasing order. -/
def subnetIPs (base maskBits : Nat) : List Nat :=
  (List.range (2 ^ (32 - maskBits))).map (fun i => base + i)

/-- cmd_server.go connection: data about one connected client. -/
structure Connection where
  name : String
  localIP : String
  remoteIP : String
deriving DecidableEq

/-- The allocation state of serverCmd: the assigned map and the serverIP
field.  A key mapped to none models both an absent key and a key mapped to
nil, which the Go code never distinguishes. -/
structure PoolState where
  assigned : List (String × Option Connection)
  serverIP : String
deriving DecidableEq

/-- Go map read p.assigned[s]. -/
def poolGet : List (String × Option Connection) → String → Option Connection
  | [], _ => none
  | p :: rest, k => if p.1 = k then p.2 else poolGet rest k

/-- Go map assignment p.assigned[s] = v. -/
def poolSet (l : List (String × Option Connection)) (k : String) (v : Option Connection) :
    List (String × Option Connection) :=
  (k, v) :: l.filter (fun p => p.1 != k)

/-- One iteration of the startup loop of serverCmd.Execute: skip addresses
ending in .0, mark the address free, and pre-bind the first address in the
range to the relay itself, recording it as serverIP. -/
def serverInitStep (st : PoolState) (ipn : Nat) : PoolState :=
  let s := ipToString ipn
  if goHasSuffix s ".0" then st
  else
    let st1 : PoolState := { st with assigned := poolSet st.assigned s none }
    if st1.serverIP == "" then
      let bound := poolSet st1.assigned s (some { name := "vpn-server", localIP := s, remoteIP := s })
      { assigned := bound, serverIP := s }
    else st1

/-- The startup initialization of serverCmd.Execute over the subnet. -/
def serverInit (base maskBits : Nat) : PoolState :=
  (subnetIPs base maskBits).foldl serverInitStep { assigned := [], serverIP := "" }

/-- cmd_server.go pickIP: under the pool lock, use the fixed mapping for
the name when configured and currently free, otherwise scan the subnet in
address order, skipping addresses ending in .0, for the first free entry;
fail (Out of IP addresses) if none. -/
def pickIP (cfg : String → String) (base maskBits : Nat) (st : PoolState)
    (name remote : String) : PoolState × Option String :=
  let fixed := cfg ("host_" ++ name)
  if fixed != "" && (poolGet st.assigned fixed).isNone then
    let bound := poolSet st.assigned fixed (some { name := name, localIP := fixed, remoteIP := remote })
    ({ st with assigned := bound }, some fixed)
  else
    match (subnetIPs base maskBits).find? (fun ipn =>
        !goHasSuffix (ipToString ipn) ".0" && (poolGet st.assigned (ipToString ipn)).isNone) with
    | some ipn =>
      let s := ipToString ipn
      let bound := poolSet st.assigned s (some { name := name, localIP := s, remoteIP := remote })
      ({ st with assigned := bound }, some s)
    | none => (st, none)

/-- The reap callback registered in serveWs: release the IP if still bound
(idempotent). -/
def reapRelease (st : PoolState) (x : String) : PoolState :=
  if (poolGet st.assigned x).isSome then { st with assigned := poolSet st.assigned x none }
  else st

/-- The concrete scenario of C2: subnet 10.0.0.0/30 with no fixed
mappings configured. -/
def c2cfg : String → String := fun _ => ""

/-- 10.0.0.0 as a 32-bit value. -/
def c2base : Nat := 167772160

def c2s0 : PoolState := serverInit c2base 30

def c2r1 : PoolState × Option String := pickIP c2cfg c2base 30 c2s0 "hostA" "remA"

def c2r2 : PoolState × Option String := pickIP c2cfg c2base 30 c2r1.1 "hostB" "remB"

def c2r3 : PoolState × Option String := pickIP c2cfg c2base 30 c2r2.1 "hostC" "remC"

def c2s4 : PoolState := reapRelease c2r3.1 "10.0.0.2"

def c2r5 : PoolState × Option String := pickIP c2cfg c2base 30 c2s4 "hostD" "remD"

def c2r6 : PoolState × Option String := pickIP c2cfg c2base 30 c2r5.1 "hostE" "remE"

/-! ## Control command protocol (shared/socketHandler.go) -/

/-- Go strings.Split(s, "bar") for the one-character delimiter of the
command protocol, on strings as lists of characters. -/
def splitPipe : List Char → List (List Char)
  | [] => [[]]
  | c :: rest =>
    if c = '|' then [] :: splitPipe rest
    else
      match splitPipe rest with
      | [] => [[c]]
      | f :: fs => (c :: f) :: fs

/-- Go strings.Join(args, the delimiter). -/
def joinPipe : List (List Char) → List Char
  | [] => []
  | [a] => a
  | a :: rest => a ++ '|' :: joinPipe rest

/-- shared/socketHandler.go rawSendCommand: the text message
fmt.Sprintf with commandId, command and the joined args, delimited. -/
def rawSendCommand (commandId command : List Char) (args : List (List Char)) : List Char :=
  commandId ++ '|' :: command ++ '|' :: joinPipe args

/-- fmt.Sprintf %v of a Go bool. -/
def goBoolStr (b : Bool) : List Char :=
  if b then "true".toList else "false".toList

/-- What one execution of the text-message branch of Serve does: the reply
message sent back (if any), the handler dispatch performed (command name
and argument slice, if any), and whether the pump terminates because of
this message (it never does). -/
structure TextResult where
  replySent : Option (List Char)
  dispatched : Option (List Char × List (List Char))
  fatal : Bool
deriving DecidableEq

/-- Whether the dispatch succeeds: err == nil after the handler block
(unknown command names produce an error). -/
def dispatchSucceeds (handlers : List Char → Option (List (List Char) → Bool))
    (name : List Char) (args : List (List Char)) : Bool :=
  match handlers name with
  | none => false
  | some h => h args

/-- The text-message branch of shared/socketHandler.go Serve: split on the
delimiter; fewer than 2 fields is logged and skipped; a reply command is
logged and skipped; otherwise the handler (if registered) runs on the
fields from index 2 on, and a reply carrying the same commandId and the
boolean success indicator is sent unconditionally.  A handler returning
true models a nil error. -/
def textStep (handlers : List Char → Option (List (List Char) → Bool)) (msg : List Char) :
    TextResult :=
  match splitPipe msg with
  | f0 :: f1 :: rest =>
    if f1 = "reply".toList then
      { replySent := none, dispatched := none, fatal := false }
    else
      match handlers f1 with
      | none =>
        { replySent := some (rawSendCommand f0 ("reply".toList) [goBoolStr false])
          dispatched := none
          fatal := false }
      | some h =>
        { replySent := some (rawSendCommand f0 ("reply".toList) [goBoolStr (h rest)])
          dispatched := some (f1, rest)
          fatal := false }
  | _ => { replySent := none, dispatched := none, fatal := false }

/-- The handler registry of the C10 witness. -/
def c10handler : List (List Char) → Bool := fun _ => true

def c10handlers : List Char → Option (List (List Char) → Bool) :=
  fun n => if n = "init".toList then some c10handler else none

/-! ## Theorems -/

/-- C4: the claim says extraction accesses only bytes within the message for
every message of length at least 14, in both variants.  This is false: the
IPv6-aware variant slices packet[16:32], which is out of bounds for a
14-byte message; moreover on 32-byte messages its result depends on bytes
beyond offset 14, so it does not read only bytes that a 14-byte message
contains. -/
theorem c4_counterexample :
    14 ≤ (List.replicate 14 (0 : Nat)).length
    ∧ ¬ goSliceInBounds (List.replicate 14 (0 : Nat)) 16 32
    ∧ GetSrcMACv6 (List.replicate 32 (0 : Nat))
        ≠ GetSrcMACv6 (List.replicate 14 (0 : Nat) ++ List.replicate 18 (7 : Nat)) := by
  decide

/-- C4 (amended): for every binary message of length at least 14, the IPv4
switching mode extraction stays within the message and only reads the first
14 bytes (indeed the first 12); the IPv6-aware variant stays within the
first 32 bytes and depends only on them, but is within the message only
when the message has at least 32 bytes — for shorter messages its
source-address slice packet[16:32] is out of bounds.  Extraction never
modifies the frame: both extractors are pure functions of the message. -/
theorem mac_extraction_bounds (msg : List Nat) (h : 14 ≤ msg.length) :
    (goSliceInBounds msg 6 12 ∧ goSliceInBounds msg 0 6)
    ∧ GetSrcMAC msg = GetSrcMAC (msg.take 14)
    ∧ GetDestMAC msg = GetDestMAC (msg.take 14)
    ∧ (32 ≤ msg.length →
        goSliceInBounds msg 16 32 ∧ goSliceInBounds msg 0 16
        ∧ GetSrcMACv6 msg = GetSrcMACv6 (msg.take 32)
        ∧ GetDestMACv6 msg = GetDestMACv6 (msg.take 32))
    ∧ (msg.length < 32 → ¬ goSliceInBounds msg 16 32) := by
  refine ⟨⟨⟨by omega, by omega⟩, ⟨by omega, by omega⟩⟩, ?_, ?_, ?_, ?_⟩
  · simp [GetSrcMAC, goSlice, List.take_take]
  · simp [GetDestMAC, goSlice, List.take_take]
  · intro h32
    exact ⟨⟨by omega, by omega⟩, ⟨by omega, by omega⟩,
      by simp [GetSrcMACv6, goSlice, List.take_take],
      by simp [GetDestMACv6, goSlice, List.take_take]⟩
  · intro hlt hb
    exact absurd hb.2 (by omega)

/-- C4 witness: the amended bounds theorem applied to a concrete 14-byte
message. -/
theorem mac_extraction_bounds_witness :
    goSliceInBounds (List.replicate 14 (0 : Nat)) 6 12
    ∧ ¬ goSliceInBounds (List.replicate 14 (0 : Nat)) 16 32 :=
  ⟨(mac_extraction_bounds (List.replicate 14 0) (by decide)).1.1,
   (mac_extraction_bounds (List.replicate 14 0) (by decide)).2.2.2.2 (by decide)⟩

/-- C1: the claim says a unicast frame with no switching-table entry is
fanned out to every other Endpoint and then written to the local tunnel
interface.  This is false: the code only calls BroadcastMessage in the
non-unicast branch, so an unknown unicast destination falls through to the
local interface write alone.  Concretely, with sockets 1 and 2 serving, a
14-byte frame received on socket 1 addressed to the unicast MAC
[0,0,0,0,0,2] absent from the table produces only the local interface
write and no write to socket 2. -/
theorem c1_counterexample :
    (2 : Nat) ∈ (SwitchState.mk [] [1, 2] (fun _ => defaultMac)).allSockets
    ∧ 14 ≤ ([0, 0, 0, 0, 0, 2, 0, 0, 0, 0, 0, 1, 0, 0] : List Nat).length
    ∧ MACIsUnicast (GetDestMAC [0, 0, 0, 0, 0, 2, 0, 0, 0, 0, 0, 1, 0, 0]) = true
    ∧ FindSocketByMAC
        (setMACFrom (SwitchState.mk [] [1, 2] (fun _ => defaultMac)) 1
          [0, 0, 0, 0, 0, 2, 0, 0, 0, 0, 0, 1, 0, 0])
        (GetDestMAC [0, 0, 0, 0, 0, 2, 0, 0, 0, 0, 0, 1, 0, 0]) = none
    ∧ (binaryStep (SwitchState.mk [] [1, 2] (fun _ => defaultMac)) 1 true
        [0, 0, 0, 0, 0, 2, 0, 0, 0, 0, 0, 1, 0, 0]).2
        = [Effect.ifaceWrite [0, 0, 0, 0, 0, 2, 0, 0, 0, 0, 0, 1, 0, 0]]
    ∧ Effect.wsWrite 2 [0, 0, 0, 0, 0, 2, 0, 0, 0, 0, 0, 1, 0, 0]
        ∉ (binaryStep (SwitchState.mk [] [1, 2] (fun _ => defaultMac)) 1 true
            [0, 0, 0, 0, 0, 2, 0, 0, 0, 0, 0, 1, 0, 0]).2 := by
  decide

/-- C1 (amended): in the transport-read pump, a received binary message of
length at least 14 whose destination MAC is unicast but has no
switching-table entry (after the learning step) is not forwarded to any
other Endpoint; it is only written to this Endpoint's own tunnel interface
when one is bound, and dropped otherwise. -/
theorem unicast_miss_local_only (st : SwitchState) (s : Nat) (hasIface : Bool)
    (msg : List Nat) (hlen : 14 ≤ msg.length)
    (huni : MACIsUnicast (GetDestMAC msg) = true)
    (hmiss : FindSocketByMAC (setMACFrom st s msg) (GetDestMAC msg) = none) :
    (binaryStep st s hasIface msg).2 = if hasIface then [Effect.ifaceWrite msg] else [] := by
  simp [binaryStep, hlen, huni, hmiss]

/-- C1 witness: the amended theorem applied at the concrete state of the
counterexample, with no interface bound, yields no write at all. -/
theorem unicast_miss_local_only_witness :
    (binaryStep (SwitchState.mk [] [1, 2] (fun _ => defaultMac)) 1 false
      [0, 0, 0, 0, 0, 2, 0, 0, 0, 0, 0, 1, 0, 0]).2 = [] :=
  unicast_miss_local_only (SwitchState.mk [] [1, 2] (fun _ => defaultMac)) 1 false
    [0, 0, 0, 0, 0, 2, 0, 0, 0, 0, 0, 1, 0, 0] (by decide) (by decide) (by decide)

/-- C5: a received binary frame of length at least 14 whose unicast
destination MAC has a switching-table entry (at the lookup performed after
the learning step) is written to exactly the entry's owner: the effect list
is the singleton WriteMessage to that socket, so no broadcast happens and
the receiving socket's own tunnel interface is not written. -/
theorem unicast_hit_exactly_one (st : SwitchState) (s : Nat) (hasIface : Bool)
    (msg : List Nat) (sd : Nat) (hlen : 14 ≤ msg.length)
    (huni : MACIsUnicast (GetDestMAC msg) = true)
    (hhit : FindSocketByMAC (setMACFrom st s msg) (GetDestMAC msg) = some sd) :
    (binaryStep st s hasIface msg).2 = [Effect.wsWrite sd msg] := by
  simp [binaryStep, hlen, huni, hhit]

/-- C5 witness: with socket 2 owning the destination MAC, the frame goes to
socket 2 alone. -/
theorem unicast_hit_exactly_one_witness :
    (binaryStep (SwitchState.mk [([0, 0, 0, 0, 0, 2], 2)] [1, 2] (fun _ => defaultMac)) 1 true
      [0, 0, 0, 0, 0, 2, 0, 0, 0, 0, 0, 1, 0, 0]).2
      = [Effect.wsWrite 2 [0, 0, 0, 0, 0, 2, 0, 0, 0, 0, 0, 1, 0, 0]] :=
  unicast_hit_exactly_one
    (SwitchState.mk [([0, 0, 0, 0, 0, 2], 2)] [1, 2] (fun _ => defaultMac)) 1 true
    [0, 0, 0, 0, 0, 2, 0, 0, 0, 0, 0, 1, 0, 0] 2 (by decide) (by decide) (by decide)

/-- C6: BroadcastMessage writes the frame exactly once to each socket of
the Global Endpoint Set other than the sender, and performs no write to the
sender (socket identities in the set are distinct, as keys of a Go map). -/
theorem broadcast_exactly_once (socks : List Nat) (skip : Nat) (msg : List Nat)
    (hnd : socks.Nodup) :
    (∀ d, d ∈ socks → d ≠ skip →
        (broadcastEffects socks skip msg).count (Effect.wsWrite d msg) = 1)
    ∧ (∀ m, Effect.wsWrite skip m ∉ broadcastEffects socks skip msg) := by
  constructor
  · intro d hmem hne
    have hinj : Function.Injective (fun v => Effect.wsWrite v msg) := by
      intro a b hab
      simpa using hab
    rw [broadcastEffects, List.count_map_of_injective _ _ hinj]
    refine List.count_eq_one_of_mem (hnd.filter _) ?_
    simp [hmem, hne]
  · intro m hm
    rcases List.mem_map.mp hm with ⟨v, hv, heq⟩
    have hvs : v ≠ skip := by simpa using (List.mem_filter.mp hv).2
    cases heq
    exact hvs rfl

/-- C6 witness: broadcasting from socket 2 among sockets 1, 2, 3 writes
once to socket 1 and never to socket 2. -/
theorem broadcast_exactly_once_witness :
    (broadcastEffects [1, 2, 3] 2 [9]).count (Effect.wsWrite 1 [9]) = 1
    ∧ Effect.wsWrite 2 [9] ∉ broadcastEffects [1, 2, 3] 2 [9] :=
  ⟨(broadcast_exactly_once [1, 2, 3] 2 [9] (by decide)).1 1 (by decide) (by decide),
   (broadcast_exactly_once [1, 2, 3] 2 [9] (by decide)).2 [9]⟩

/-! ## Association-list map lemmas shared by the Close and learning claims -/

theorem mapGet_insert_self (t : List (Mac × Nat)) (k : Mac) (v : Nat) :
    mapGet (mapInsert t k v) k = some v := by
  simp [mapGet, mapInsert]

theorem mapGet_delete_self (t : List (Mac × Nat)) (k : Mac) :
    mapGet (mapDelete t k) k = none := by
  induction t with
  | nil => rfl
  | cons p rest ih =>
    by_cases h : p.1 = k
    · simpa [mapDelete, h] using ih
    · simpa [mapDelete, mapGet, h] using ih

theorem mapGet_delete_ne (t : List (Mac × Nat)) (k k' : Mac) (h : k' ≠ k) :
    mapGet (mapDelete t k) k' = mapGet t k' := by
  induction t with
  | nil => rfl
  | cons p rest ih =>
    have h' : ¬ (k = k') := fun hc => h hc.symm
    by_cases hp : p.1 = k
    · simpa [mapDelete, mapGet, hp, h'] using ih
    · by_cases hq : p.1 = k'
      · simp [mapDelete, mapGet, hp, hq, h]
      · simpa [mapDelete, mapGet, hp, hq] using ih

theorem mapGet_insert_ne (t : List (Mac × Nat)) (k : Mac) (v : Nat) (k' : Mac) (h : k' ≠ k) :
    mapGet (mapInsert t k v) k' = mapGet t k' := by
  have hk : ¬ (k = k') := fun hc => h hc.symm
  rw [mapInsert]
  show mapGet ((k, v) :: mapDelete t k) k' = mapGet t k'
  simpa [mapGet, hk] using mapGet_delete_ne t k k' h

/-- Normal form of Close: each field of the resulting state, directly. -/
theorem Close_eq (st : CloseState) (s : Nat) :
    Close st s = CloseState.mk
      (if st.mac = defaultMac then st.macTable else mapDelete st.macTable st.mac)
      (st.allSockets.filter (fun v => v != s))
      defaultMac
      false
      st.ifacePresent
      (if st.ifacePresent then false else st.ifaceOpen)
      false
      (if st.closechanopen then st.closeSignals + 1 else st.closeSignals) := by
  rw [Close]
  by_cases h1 : st.closechanopen <;> by_cases h2 : st.mac = defaultMac <;>
    simp [h1, h2]

/-- C7: Close is idempotent, and after any call to Close the learned MAC is
reset to the unlearned broadcast value, the socket is no longer a member of
allSockets (so a broadcast from the post-close set never writes to it), the
switching-table entry keyed by the learned MAC is gone, and starting from a
not-yet-closed socket the one-shot closing signal has fired exactly once,
also after repeated calls. -/
theorem close_idempotent_cleanup (st : CloseState) (s : Nat) :
    Close (Close st s) s = Close st s
    ∧ (Close st s).mac = defaultMac
    ∧ s ∉ (Close st s).allSockets
    ∧ (st.mac ≠ defaultMac → mapGet (Close st s).macTable st.mac = none)
    ∧ (∀ skip msg, Effect.wsWrite s msg ∉ broadcastEffects (Close st s).allSockets skip msg)
    ∧ (st.closechanopen = true → st.closeSignals = 0 →
        (Close st s).closeSignals = 1 ∧ (Close (Close st s) s).closeSignals = 1) := by
  have hmem : s ∉ (Close st s).allSockets := by
    rw [Close_eq]
    intro h
    have := (List.mem_filter.mp h).2
    simp at this
  have hidem : Close (Close st s) s = Close st s := by
    rw [Close_eq (Close st s) s, Close_eq st s]
    by_cases hp : st.ifacePresent <;>
      simp [hp, List.filter_filter]
  refine ⟨hidem, by rw [Close_eq], hmem, ?_, ?_, ?_⟩
  · intro hne
    rw [Close_eq]
    simp only [hne, if_neg]
    exact mapGet_delete_self _ _
  · intro skip msg hmem2
    rcases List.mem_map.mp hmem2 with ⟨v, hv, heq⟩
    have hvm : v ∈ (Close st s).allSockets := (List.mem_filter.mp hv).1
    cases heq
    exact hmem hvm
  · intro hopen hzero
    have h1 : (Close st s).closeSignals = 1 := by
      rw [Close_eq]
      simp [hopen, hzero]
    exact ⟨h1, by rw [hidem]; exact h1⟩

/-- C7 witness: the cleanup theorem applied to a concrete open socket that
holds a table entry. -/
theorem close_idempotent_cleanup_witness :
    (Close (CloseState.mk [([0, 0, 0, 0, 0, 1], 1)] [1, 2] [0, 0, 0, 0, 0, 1]
        true true true true 0) 1).closeSignals = 1
    ∧ mapGet (Close (CloseState.mk [([0, 0, 0, 0, 0, 1], 1)] [1, 2] [0, 0, 0, 0, 0, 1]
        true true true true 0) 1).macTable [0, 0, 0, 0, 0, 1] = none :=
  ⟨((close_idempotent_cleanup (CloseState.mk [([0, 0, 0, 0, 0, 1], 1)] [1, 2]
      [0, 0, 0, 0, 0, 1] true true true true 0) 1).2.2.2.2.2 rfl rfl).1,
   (close_idempotent_cleanup (CloseState.mk [([0, 0, 0, 0, 0, 1], 1)] [1, 2]
      [0, 0, 0, 0, 0, 1] true true true true 0) 1).2.2.2.1 (by decide)⟩

/-! ## MAC learning (shared/socketHandler.go setMACFrom) -/

/-- C8: MAC learning is idempotent - a frame whose source address equals
the currently learned address leaves the state untouched (the code returns
the state unchanged) - and, when the source is a valid unicast address
differing from the learned one, the prior table entry of this Endpoint is
removed, the new address is recorded as learned, and the entries owned by
this Endpoint in the new table are exactly the one fresh entry keyed by the
new address.  The two invariant hypotheses state what is true of every
reachable table: entries owned by a socket are keyed by its learned MAC,
and the broadcast marker address is never a key. -/
theorem setMACFrom_spec (st : SwitchState) (s : Nat) (msg : List Nat) :
    (GetSrcMAC msg = st.sockMac s → setMACFrom st s msg = st)
    ∧ (MACIsUnicast (GetSrcMAC msg) = true → GetSrcMAC msg ≠ st.sockMac s →
        (∀ k, mapGet st.macTable k = some s → k = st.sockMac s) →
        mapGet st.macTable defaultMac = none →
        (setMACFrom st s msg).sockMac s = GetSrcMAC msg
        ∧ (st.sockMac s ≠ defaultMac →
            mapGet (setMACFrom st s msg).macTable (st.sockMac s) = none)
        ∧ (∀ k, mapGet (setMACFrom st s msg).macTable k = some s ↔ k = GetSrcMAC msg)) := by
  constructor
  · intro heq
    simp [setMACFrom, heq]
  · intro huni hne hinv hdef
    have hcond : (!MACIsUnicast (GetSrcMAC msg) || (GetSrcMAC msg == st.sockMac s)) = false := by
      simp [huni, hne]
    have hstep : setMACFrom st s msg =
        { macTable := mapInsert
            (if st.sockMac s ≠ defaultMac then mapDelete st.macTable (st.sockMac s)
             else st.macTable) (GetSrcMAC msg) s
          allSockets := st.allSockets
          sockMac := fun x => if x = s then GetSrcMAC msg else st.sockMac x } := by
      rw [setMACFrom]
      simp only [hcond, Bool.false_eq_true, if_false]
    rw [hstep]
    refine ⟨by simp, ?_, ?_⟩
    · intro hold
      have hos : st.sockMac s ≠ GetSrcMAC msg := fun hc => hne hc.symm
      simp only [hold, if_pos, ne_eq, not_false_eq_true, if_true]
      rw [mapGet_insert_ne _ _ _ _ hos]
      exact mapGet_delete_self _ _
    · intro k
      by_cases hk : k = GetSrcMAC msg
      · subst hk
        simp [mapGet_insert_self]
      · rw [mapGet_insert_ne _ _ _ _ hk]
        by_cases hold : st.sockMac s = defaultMac
        · simp only [hold, ne_eq, not_true_eq_false, if_false]
          constructor
          · intro hks
            exact absurd (hinv k hks ▸ hks ▸ (hold ▸ hinv k hks) ▸ hks)
              (by
                have : k = st.sockMac s := hinv k hks
                rw [this, hold] at hks
                rw [hdef] at hks
                exact fun _ => Option.noConfusion hks)
          · intro hc
            exact absurd hc hk
        · simp only [ne_eq, hold, not_false_eq_true, if_true]
          by_cases hko : k = st.sockMac s
          · subst hko
            rw [mapGet_delete_self]
            constructor
            · intro hc
              exact Option.noConfusion hc
            · intro hc
              exact absurd hc hk
          · rw [mapGet_delete_ne _ _ _ hko]
            constructor
            · intro hks
              exact absurd (hinv k hks) hko
            · intro hc
              exact absurd hc hk

/-- C8 witness: socket 1 previously learned the address ending in 9 and
owns its entry; a frame whose source ends in 1 re-keys it. -/
theorem setMACFrom_spec_witness :
    (setMACFrom (SwitchState.mk [([0, 0, 0, 0, 0, 9], 1)] [1]
        (fun _ => [0, 0, 0, 0, 0, 9])) 1
      [0, 0, 0, 0, 0, 2, 0, 0, 0, 0, 0, 1, 0, 0]).sockMac 1
      = GetSrcMAC [0, 0, 0, 0, 0, 2, 0, 0, 0, 0, 0, 1, 0, 0]
    ∧ mapGet (setMACFrom (SwitchState.mk [([0, 0, 0, 0, 0, 9], 1)] [1]
        (fun _ => [0, 0, 0, 0, 0, 9])) 1
      [0, 0, 0, 0, 0, 2, 0, 0, 0, 0, 0, 1, 0, 0]).macTable [0, 0, 0, 0, 0, 9] = none := by
  have hinv : ∀ k, mapGet [([0, 0, 0, 0, 0, 9], 1)] k = some 1 → k = [0, 0, 0, 0, 0, 9] := by
    intro k hk
    by_cases h : ([0, 0, 0, 0, 0, 9] : Mac) = k
    · exact h.symm
    · simp [mapGet, h] at hk
  have h := (setMACFrom_spec (SwitchState.mk [([0, 0, 0, 0, 0, 9], 1)] [1]
      (fun _ => [0, 0, 0, 0, 0, 9])) 1
      [0, 0, 0, 0, 0, 2, 0, 0, 0, 0, 0, 1, 0, 0]).2
      (by decide) (by decide) hinv (by decide)
  exact ⟨h.1, h.2.1 (by decide)⟩

/-- C3: under the interleaving in which both tasks evaluate the guard
before either sets the flag, the reap callback is invoked twice, violating
the exactly-once claim; when one task runs the whole section before the
other, it is invoked exactly once.  The unlocked check-then-set of
s.reaped in closeDone is the slip: the comment in the code says the check
is there to avoid repeats, and the spec promises exactly-once even under
concurrent failure detection. -/
theorem closeDone_reap_race :
    (runSched reapInit [true, false, true, false, true, false]).reapCount = 2
    ∧ (runSched reapInit [true, true, true, false]).reapCount = 1
    ∧ (runSched reapInit [true, false, true, false, true, false]).pc1 = ReapPC.done
    ∧ (runSched reapInit [true, false, true, false, true, false]).pc2 = ReapPC.done := by
  decide

/-- C2: the claim says that after startup initialization three allocations
succeed on 10.0.0.0/30.  This is false: initialization pre-binds the first
usable address 10.0.0.1 to the relay itself, so only 10.0.0.2 and 10.0.0.3
are free and the third allocation already fails with the pool exhausted. -/
theorem c2_counterexample :
    c2r1.2 = some "10.0.0.2" ∧ c2r2.2 = some "10.0.0.3" ∧ c2r3.2 = none := by
  decide

/-- C2 (amended): on 10.0.0.0/30 the startup initialization reserves
10.0.0.1 for the relay (serverIP); allocating 2 distinct names succeeds
with 2 distinct addresses, a 3rd allocation fails with the pool-exhausted
error, and releasing one bound address makes exactly one subsequent
allocation succeed again. -/
theorem pool_alloc_release_scenario :
    c2s0.serverIP = "10.0.0.1"
    ∧ c2r1.2 = some "10.0.0.2" ∧ c2r2.2 = some "10.0.0.3"
    ∧ c2r1.2 ≠ c2r2.2
    ∧ c2r3.2 = none
    ∧ c2r5.2 = some "10.0.0.2"
    ∧ c2r6.2 = none := by
  decide

theorem splitPipe_append (xs ys : List Char) (h : '|' ∉ xs) :
    splitPipe (xs ++ '|' :: ys) = xs :: splitPipe ys := by
  induction xs with
  | nil => simp [splitPipe]
  | cons c rest ih =>
    have hc : ¬ (c = '|') := fun hq => h (hq ▸ List.mem_cons_self c rest)
    have hrest : '|' ∉ rest := fun hq => h (List.mem_cons_of_mem c hq)
    rw [List.cons_append, splitPipe, if_neg hc, ih hrest]

/-- C9: the claim says protocol-format errors, including malformed command
frames, are reported back via a reply with success=false.  This is false
for malformed frames: a text message with no delimiter splits into a single
field and the code logs and skips it without sending any reply. -/
theorem c9_counterexample :
    (splitPipe ("nopipe".toList)).length = 1
    ∧ (textStep (fun _ => none) ("nopipe".toList)).replySent = none
    ∧ (textStep (fun _ => none) ("nopipe".toList)).fatal = false := by
  decide

/-- C9 (amended): every text message is non-fatal to the pump.  A message
with at least two fields whose command name is not the reserved reply name
always elicits exactly one reply carrying the same commandID field and the
boolean success indicator (false for unknown command names, which are not
dispatched); a malformed frame (fewer than two fields) is logged and
skipped with no reply and no dispatch; a message whose command name is
reply is never dispatched to a handler and elicits no reply. -/
theorem text_command_reply_spec (handlers : List Char → Option (List (List Char) → Bool))
    (msg : List Char) :
    (textStep handlers msg).fatal = false
    ∧ (∀ f0 f1 rest, splitPipe msg = f0 :: f1 :: rest → f1 ≠ "reply".toList →
        (textStep handlers msg).replySent
          = some (rawSendCommand f0 ("reply".toList)
              [goBoolStr (dispatchSucceeds handlers f1 rest)]))
    ∧ ((splitPipe msg).length < 2 →
        (textStep handlers msg).replySent = none ∧ (textStep handlers msg).dispatched = none)
    ∧ (∀ f0 rest, splitPipe msg = f0 :: "reply".toList :: rest →
        (textStep handlers msg).replySent = none ∧ (textStep handlers msg).dispatched = none)
    ∧ (∀ f0 f1 rest, splitPipe msg = f0 :: f1 :: rest → handlers f1 = none →
        (textStep handlers msg).dispatched = none) := by
  refine ⟨?_, ?_, ?_, ?_, ?_⟩
  · unfold textStep
    rcases splitPipe msg with _ | ⟨f0, _ | ⟨f1, rest⟩⟩
    · rfl
    · rfl
    · dsimp only
      split
      · rfl
      · cases handlers f1 <;> rfl
  · intro f0 f1 rest hsp hne
    unfold textStep
    rw [hsp]
    dsimp only
    rw [if_neg hne]
    cases hh : handlers f1 <;> simp [dispatchSucceeds, hh]
  · intro hlen
    unfold textStep
    rcases hsp : splitPipe msg with _ | ⟨f0, _ | ⟨f1, rest⟩⟩
    · exact ⟨rfl, rfl⟩
    · exact ⟨rfl, rfl⟩
    · rw [hsp] at hlen
      simp only [List.length_cons] at hlen
      omega
  · intro f0 rest hsp
    unfold textStep
    rw [hsp]
    dsimp only
    rw [if_pos rfl]
    exact ⟨rfl, rfl⟩
  · intro f0 f1 rest hsp hnone
    unfold textStep
    rw [hsp]
    dsimp only
    by_cases hr : f1 = "reply".toList
    · rw [if_pos hr]
    · rw [if_neg hr, hnone]

/-- C9 witness: a frame carrying an unknown command elicits a reply with
success false, computed through the amended theorem. -/
theorem text_command_reply_spec_witness :
    (textStep (fun _ => none) ("3|foo|x".toList)).replySent
      = some (rawSendCommand ("3".toList) ("reply".toList) [goBoolStr false]) := by
  have h := (text_command_reply_spec (fun _ => none) ("3|foo|x".toList)).2.1
    ("3".toList) ("foo".toList) [("x".toList)] (by decide) (by decide)
  simpa [dispatchSucceeds] using h

/-- C10: sending a command with an empty argument list emits the text
commandID, name and a trailing delimiter; the receiving split therefore
produces three fields whose third is the empty string, and a registered
handler for that name is invoked with the one-element argument list
containing the empty string, never with the empty list. -/
theorem empty_args_single_empty_string (id name : List Char)
    (handlers : List Char → Option (List (List Char) → Bool))
    (h : List (List Char) → Bool)
    (hid : '|' ∉ id) (hname : '|' ∉ name)
    (hrep : name ≠ "reply".toList) (hreg : handlers name = some h) :
    rawSendCommand id name [] = id ++ '|' :: (name ++ ['|'])
    ∧ splitPipe (rawSendCommand id name []) = [id, name, []]
    ∧ (textStep handlers (rawSendCommand id name [])).dispatched = some (name, [[]])
    ∧ ([[]] : List (List Char)) ≠ [] := by
  have henc : rawSendCommand id name [] = id ++ '|' :: (name ++ ['|']) := by
    simp [rawSendCommand, joinPipe]
  have hsplit : splitPipe (rawSendCommand id name []) = [id, name, []] := by
    rw [henc, splitPipe_append id (name ++ ['|']) hid]
    have : name ++ ['|'] = name ++ '|' :: [] := rfl
    rw [this, splitPipe_append name [] hname]
    rfl
  refine ⟨henc, hsplit, ?_, by simp⟩
  unfold textStep
  rw [hsplit]
  dsimp only
  rw [if_neg hrep, hreg]

/-- C10 witness: the init command sent with no arguments reaches the
registered init handler with exactly one empty-string argument. -/
theorem empty_args_single_empty_string_witness :
    (textStep c10handlers (rawSendCommand ("7".toList) ("init".toList) [])).dispatched
      = some ("init".toList, [[]]) :=
  (empty_args_single_empty_string ("7".toList) ("init".toList) c10handlers c10handler
    (by decide) (by decide) (by decide) (by simp [c10handlers])).2.2.1

end SimpleVPN
